import Mathlib

/-!
Verification development for the pytracker gaze-analysis core
(coordinate transform, velocity estimation, Engbert microsaccade
detection, event properties and event-gaze aggregation).

The Python sources are shallowly embedded: numpy arrays become lists,
floats become real numbers, raised exceptions become `Except`/`Option`
error values. NaN-related branches (the `include_nan` flag of
`microsaccades` and the nan-ignoring behaviour of the numpy statistics
on data without missing values) are not modelled, since the reals have
no NaN and no claim below concerns missing data.
-/

namespace Pytracker

/-! ## numpy array helpers -/

/-- Indices of `true` entries of a boolean mask, in order.
Embeds `np.where(mask)[0]`. -/
def npWhereAux : ℕ → List Bool → List ℕ
  | _, [] => []
  | i, b :: rest =>
      if b then i :: npWhereAux (i + 1) rest else npWhereAux (i + 1) rest

/-- `np.where(mask)[0]`. -/
def npWhere (mask : List Bool) : List ℕ :=
  npWhereAux 0 mask

/-- `np.split(arr, idxs)`: cut `arr` at the given (increasing) positions;
`np.split(a, [i, j])` is `[a[0:i], a[i:j], a[j:]]`, and an empty index
list yields the whole array as a single chunk. -/
def npSplit {α : Type} (arr : List α) (idxs : List ℕ) : List (List α) :=
  match idxs with
  | [] => [arr]
  | i :: rest => arr.take i :: npSplit (arr.drop i) (rest.map (· - i))
termination_by idxs.length
decreasing_by simp

/-- `np.diff(arr)` for an integer array. -/
def diffList (l : List ℤ) : List ℤ :=
  List.zipWith (fun a b => b - a) l l.tail

/-- `np.where(np.diff(arr) != 1)[0] + 1`: the cut positions used by the
run-length grouping. -/
def splitIndices (l : List ℤ) : List ℕ :=
  (npWhere ((diffList l).map (fun d => decide (d ≠ 1)))).map (· + 1)

/-! ## gaze/transforms.py -/

/-- `downsample` (gaze/transforms.py, lines 220-224): returns
`np.split(arr, np.where(np.diff(arr) != 1)[0] + 1)`; the `factor`
argument does not occur in the body. -/
def downsample (arr : List ℤ) (factor : ℤ) : List (List ℤ) :=
  npSplit arr (splitIndices arr)

/-- Modelled from the spec: the run-length grouping utility of spec 4.5,
imported by `microsaccades` as `consecutive` from gaze/transforms.py but
not defined under src/; it partitions a sorted index sequence into
maximal runs of indices that are consecutive by 1, which is exactly the
body of `downsample` above (the claim sources for the detection scenario
also point at those lines). -/
def consecutive (arr : List ℕ) : List (List ℕ) :=
  npSplit arr (splitIndices (arr.map Int.ofNat))

/-! ## numpy statistics (entries are reals, so the nan-ignoring variants
coincide with the plain statistics) -/

/-- `np.nanmedian` on data without missing values: middle element of the
sorted data for odd length, mean of the two middle elements for even
length. An empty list (numpy would give NaN) is sent to the default 0;
every use below is on non-empty data. -/
noncomputable def median (l : List ℝ) : ℝ :=
  let s := l.mergeSort (fun a b => decide (a ≤ b))
  if l.length % 2 = 1 then s.getD (l.length / 2) 0
  else (s.getD (l.length / 2 - 1) 0 + s.getD (l.length / 2) 0) / 2

/-- Arithmetic mean, `np.nanmean` on complete data. -/
noncomputable def mean (l : List ℝ) : ℝ :=
  l.sum / l.length

/-- `np.nanstd` on complete data: population standard deviation. -/
noncomputable def nanstd (l : List ℝ) : ℝ :=
  Real.sqrt (mean (l.map (fun a => (a - mean l) ^ 2)))

/-! ## utils/checks.py -/

/-- `check_shapes_positions_velocities` (utils/checks.py, lines 46-62).
The `(N, 2)` shape of each argument is imposed by the list-of-pairs type
of the embedding, so only the mutual shape equality remains. `none`
means the check passes, `some msg` that a `ValueError` is raised. -/
def check_shapes_positions_velocities
    (positions velocities : List (ℝ × ℝ)) : Option String :=
  if positions.length ≠ velocities.length then
    some ("shape of positions does not match shape of velocities")
  else none

/-- `check_is_length_matching` (utils/checks.py, lines 100-110),
instantiated at its call site in `microsaccades` (velocities
vs. timesteps). -/
def check_is_length_matching
    (velocities : List (ℝ × ℝ)) (timesteps : List ℤ) : Option String :=
  if velocities.length ≠ timesteps.length then
    some ("The sequences velocities and timesteps must be of equal length.")
  else none

/-! ## events/detection/engbert.py -/

/-- `compute_threshold` (engbert.py, lines 87-113): per-axis variation
estimate of an `(N, 2)` velocity array under one of four methods; an
unknown method name raises. -/
noncomputable def compute_threshold (arr : List (ℝ × ℝ)) (method : String) :
    Except String (ℝ × ℝ) :=
  let x := arr.map Prod.fst
  let y := arr.map Prod.snd
  if method = "std" then
    .ok (nanstd x, nanstd y)
  else if method = "mad" then
    .ok (median (x.map (fun a => |a - median x|)),
         median (y.map (fun a => |a - median y|)))
  else if method = "engbert2003" then
    .ok (Real.sqrt (median (x.map (fun a => a ^ 2)) - (median x) ^ 2),
         Real.sqrt (median (y.map (fun a => a ^ 2)) - (median y) ^ 2))
  else if method = "engbert2015" then
    .ok (Real.sqrt (median (x.map (fun a => (a - median x) ^ 2))),
         Real.sqrt (median (y.map (fun a => (a - median y) ^ 2))))
  else
    .error ("Method not implemented. Valid methods: std, mad, engbert2003," ++
      " engbert2015")

/-- The `threshold` argument of `microsaccades`: either a method name or
an explicit 2-vector. The source also accepts arbitrary-length sequences
and raises unless the length is 2; that length check is imposed here by
the pair type. -/
inductive ThresholdArg where
  | str (s : String)
  | vec (v : ℝ × ℝ)

/-- The threshold-resolution block of `microsaccades` (engbert.py, lines
37-42): a method name is resolved via `compute_threshold`, an explicit
vector passes through. -/
noncomputable def resolve_threshold
    (threshold : ThresholdArg) (velocities : List (ℝ × ℝ)) :
    Except String (ℝ × ℝ) :=
  match threshold with
  | .str s => compute_threshold velocities s
  | .vec v => .ok v

/-- One row of the detection result. Modelled from the spec: the
`EventDataFrame` class lives in events/events.py, which is not under
src/; per spec 4.4 step 7 each surviving run yields one event with a
name and inclusive onset/offset ticks. -/
structure Event where
  name : String
  onset : ℤ
  offset : ℤ
deriving DecidableEq, Repr

/-- Modelled from the spec: `EventDataFrame(name=..., onsets=...,
offsets=...)` builds one event row per onset/offset pair, all sharing
the given name (spec 4.4 step 7 and the Event data model of spec 3). -/
def EventDataFrame (name : String) (onsets offsets : List ℤ) : List Event :=
  List.zipWith (fun a b => Event.mk name a b) onsets offsets

/-- `microsaccades` (engbert.py, lines 16-84) with `include_nan = False`
(its default; the nan branches are not modelled, see the header comment).
Positions and velocities are `(N, 2)` by type; `timesteps = none` stands
for the `None` default which becomes `np.arange(len(velocities))`. -/
noncomputable def microsaccades
    (positions velocities : List (ℝ × ℝ))
    (timesteps : Option (List ℤ))
    (minimum_duration : ℤ)
    (threshold : ThresholdArg)
    (threshold_factor : ℝ)
    (minimum_threshold : ℝ) :
    Except String (List Event) :=
  match check_shapes_positions_velocities positions velocities with
  | some e => .error e
  | none =>
  let ts : List ℤ :=
    match timesteps with
    | none => (List.range velocities.length).map Int.ofNat
    | some l => l
  match check_is_length_matching velocities ts with
  | some e => .error e
  | none =>
  match resolve_threshold threshold velocities with
  | .error e => .error e
  | .ok th =>
  if th.1 < minimum_threshold ∨ th.2 < minimum_threshold then
    .error ("threshold does not provide enough variance as required by" ++
      " min_threshold")
  else
    let radius : ℝ × ℝ := (th.1 * threshold_factor, th.2 * threshold_factor)
    let candidate_mask : List Bool :=
      velocities.map (fun v =>
        if (v.1 / radius.1) ^ 2 + (v.2 / radius.2) ^ 2 > 1 then true else false)
    let candidate_indices : List ℕ := npWhere candidate_mask
    let candidates0 : List (List ℕ) := consecutive candidate_indices
    let candidates : List (List ℕ) :=
      candidates0.filter (fun c =>
        !c.isEmpty &&
          decide (ts.getD (c.getLastD 0) 0 - ts.getD (c.headD 0) 0 ≥
            minimum_duration))
    let onsets := candidates.map (fun c => ts.getD (c.headD 0) 0)
    let offsets := candidates.map (fun c => ts.getD (c.getLastD 0) 0)
    .ok (EventDataFrame ("saccade") onsets offsets)

/-! ## slice assignment and gaze/transforms.py pos2vel -/

/-- numpy slice assignment `v[s : s + len(vals)] = vals`, element by
element via `List.set`. -/
def sliceAssign {α : Type} (v : List α) (s : ℕ) (vals : List α) : List α :=
  match vals with
  | [] => v
  | x :: xs => sliceAssign (v.set s x) (s + 1) xs

/-- `pos2vel` (gaze/transforms.py, lines 79-159), for a 1-D position
sequence (a 2-D input applies the same scheme per channel). `hasKwargs`
records whether extra keyword arguments were passed; `savgolFilter`
stands for the external `scipy.signal.savgol_filter` collaborator
applied with the forwarded kwargs (spec treats it as external, spec 6).
-/
noncomputable def pos2vel (arr : List ℝ) (sampling_rate : ℝ) (method : String)
    (hasKwargs : Bool) (savgolFilter : List ℝ → List ℝ) :
    Except String (List ℝ) :=
  if sampling_rate ≤ 0 then .error ("sampling_rate needs to be above zero")
  else if method = "smooth" ∧ arr.length < 6 then
    .error ("arr has to have at least 6 elements for method smooth")
  else if method = "neighbors" ∧ arr.length < 3 then
    .error ("arr has to have at least 3 elements for method neighbors")
  else if method = "preceding" ∧ arr.length < 2 then
    .error ("arr has to have at least 2 elements for method preceding")
  else if method ≠ "savitzky_golay" ∧ hasKwargs then
    .error ("selected method does not support any additional kwargs")
  else
    let N := arr.length
    let v0 : List ℝ := List.replicate N 0
    if method = "smooth" then
      let moving_avg := List.zipWith (fun a b => a - b)
        (List.zipWith (fun a b => a - b)
          (List.zipWith (fun a b => a + b) (arr.drop 4) (arr.drop 3))
          (arr.drop 1)) arr
      let v1 := sliceAssign v0 2
        (moving_avg.map (fun a => a * sampling_rate / 6))
      let v2 := v1.set 1 ((arr.getD 2 0 - arr.getD 0 0) * sampling_rate / 2)
      let v3 := v2.set (N - 2)
        ((arr.getD (N - 1) 0 - arr.getD (N - 3) 0) * sampling_rate / 2)
      let v4 := v3.set 0 ((arr.getD 1 0 - arr.getD 0 0) * sampling_rate / 2)
      let v5 := v4.set (N - 1)
        ((arr.getD (N - 1) 0 - arr.getD (N - 2) 0) * sampling_rate / 2)
      .ok v5
    else if method = "neighbors" then
      .ok (sliceAssign v0 1
        (List.zipWith (fun a b => (a - b) * sampling_rate / 2)
          (arr.drop 2) arr))
    else if method = "preceding" then
      .ok (sliceAssign v0 1
        (List.zipWith (fun a b => (a - b) * sampling_rate)
          (arr.drop 1) arr))
    else if method = "savitzky_golay" then
      .ok ((savgolFilter arr).map (fun a => a * sampling_rate))
    else
      .error ("Method needs to be in [smooth, neighbors, preceding," ++
        " savitzky_golay]")

/-! ## gaze/transforms.py pix2deg -/

/-- `np.arctan2` on the reals (range `(-pi, pi]`, `arctan2 0 0 = 0`). -/
noncomputable def arctan2 (y x : ℝ) : ℝ :=
  if 0 < x then Real.arctan (y / x)
  else if x < 0 then
    (if 0 ≤ y then Real.arctan (y / x) + Real.pi
     else Real.arctan (y / x) - Real.pi)
  else
    (if 0 < y then Real.pi / 2 else if y < 0 then -(Real.pi / 2) else 0)

/-- `check_no_zeros` (utils/checks.py, lines 11-30) for a 2-vector
argument: raises on any zero component, with the message built from the
`name` string handed in by the caller. -/
noncomputable def check_no_zeros_pair (v : ℝ × ℝ) (name : String) : Option String :=
  if v.1 = 0 ∨ v.2 = 0 then
    some ("each component in " ++ name ++ " must not be zero")
  else none

/-- `check_no_zeros` for a scalar (non-iterable) argument. -/
noncomputable def check_no_zeros_scalar (x : ℝ) (name : String) : Option String :=
  if x = 0 then some (name ++ " must not be zero") else none

/-- `pix2deg` (gaze/transforms.py, lines 14-76) for the `(N, 2)` batch
case; the dimension-compatibility checks between `arr` and the screen
vectors are imposed by the types. The second check call passes the name
string `screen_px` although it checks `screen_cm`, exactly as the source
does at line 26. -/
noncomputable def pix2deg (arr : List (ℝ × ℝ)) (screen_px screen_cm : ℝ × ℝ)
    (distance_cm : ℝ) (origin : String) : Except String (List (ℝ × ℝ)) :=
  match check_no_zeros_pair screen_px ("screen_px") with
  | some e => .error e
  | none =>
  match check_no_zeros_pair screen_cm ("screen_px") with
  | some e => .error e
  | none =>
  match check_no_zeros_scalar distance_cm ("distance_cm") with
  | some e => .error e
  | none =>
  let distance_px : ℝ × ℝ :=
    (distance_cm * (screen_px.1 / screen_cm.1),
     distance_cm * (screen_px.2 / screen_cm.2))
  let recentered : Except String (List (ℝ × ℝ)) :=
    if origin = "lower left" then
      .ok (arr.map (fun c =>
        (c.1 - (screen_px.1 - 1) / 2, c.2 - (screen_px.2 - 1) / 2)))
    else if origin = "center" then .ok arr
    else .error ("origin " ++ origin ++ " is not supported.")
  match recentered with
  | .error e => .error e
  | .ok a => .ok (a.map (fun c =>
      (arctan2 c.1 distance_px.1 * 180 / Real.pi,
       arctan2 c.2 distance_px.2 * 180 / Real.pi)))

/-! ## events/event_properties.py and events/event_processing.py -/

/-- One row of the joined event-gaze frame: the identifier values, the
sample fields of the gaze row and the event fields of the matching
event row. The property reductions below aggregate lists of these rows
(one list per event window), mirroring the polars expressions applied
inside groupby-agg. -/
structure GazeEventRow where
  ids : List ℤ
  time : ℤ
  name : String
  onset : ℤ
  offset : ℤ
  x_pos : ℝ
  y_pos : ℝ
  x_vel : ℝ
  y_vel : ℝ

/-- Aggregate max over a column, as polars `Expr.max` inside `agg`
(groups are never empty; the empty default 0 is unreachable). -/
noncomputable def listMax : List ℝ → ℝ
  | [] => 0
  | x :: xs => xs.foldl max x

/-- Aggregate min over a column. -/
noncomputable def listMin : List ℝ → ℝ
  | [] => 0
  | x :: xs => xs.foldl min x

/-- `duration` (event_properties.py, lines 18-24): offset minus onset
(constant on each event window). -/
noncomputable def duration (w : List GazeEventRow) : ℝ :=
  (((w.map GazeEventRow.offset).headD 0
    - (w.map GazeEventRow.onset).headD 0 : ℤ) : ℝ)

/-- `peak_velocity` (event_properties.py, lines 27-35):
`max(sqrt(vx^2 + vy^2))` over the window. -/
noncomputable def peak_velocity (w : List GazeEventRow) : ℝ :=
  listMax (w.map (fun r => Real.sqrt (r.x_vel ^ 2 + r.y_vel ^ 2)))

/-- `dispersion` (event_properties.py, lines 38-46):
`max(x) - min(x) + max(y) - min(y)`. -/
noncomputable def dispersion (w : List GazeEventRow) : ℝ :=
  listMax (w.map GazeEventRow.x_pos) - listMin (w.map GazeEventRow.x_pos)
    + listMax (w.map GazeEventRow.y_pos) - listMin (w.map GazeEventRow.y_pos)

/-- `amplitude` (event_properties.py, lines 49-60):
`sqrt((max(x) - min(x))^2 + (max(y) - min(y))^2)`. -/
noncomputable def amplitude (w : List GazeEventRow) : ℝ :=
  Real.sqrt ((listMax (w.map GazeEventRow.x_pos)
      - listMin (w.map GazeEventRow.x_pos)) ^ 2
    + (listMax (w.map GazeEventRow.y_pos)
      - listMin (w.map GazeEventRow.y_pos)) ^ 2)

/-- `disposition` (event_properties.py, lines 63-74):
`sqrt((x_first - x_last)^2 + (y_first - y_last)^2)`, where first and
last are `head(1)` and `reverse().head(1)` of the window column. -/
noncomputable def disposition (w : List GazeEventRow) : ℝ :=
  Real.sqrt (((w.map GazeEventRow.x_pos).headD 0
      - (w.map GazeEventRow.x_pos).getLastD 0) ^ 2
    + ((w.map GazeEventRow.y_pos).headD 0
      - (w.map GazeEventRow.y_pos).getLastD 0) ^ 2)

/-- Constant additive offset applied to the whole position/velocity
signal of a row (the translation of the invariance claim). -/
def translateRow (c : ℝ) (r : GazeEventRow) : GazeEventRow :=
  { r with x_pos := r.x_pos + c, y_pos := r.y_pos + c,
           x_vel := r.x_vel + c, y_vel := r.y_vel + c }

/-- A fragment of the Python value universe, enough to express the
runtime type checks of the column-name arguments: strings, ints, tuples
and lists. -/
inductive PyValue where
  | str (s : String)
  | int (n : ℤ)
  | tuple (elems : List PyValue)
  | list (elems : List PyValue)

/-- `type(v).__name__`. -/
def PyValue.typeName : PyValue → String
  | .str _ => "str"
  | .int _ => "int"
  | .tuple _ => "tuple"
  | .list _ => "list"

/-- `isinstance(v, str)`. -/
def PyValue.isStr : PyValue → Bool
  | .str _ => true
  | _ => false

/-- `_check_position_columns` (event_properties.py, lines 77-93):
accepts exactly a tuple of two strings; the three checks (tuple-ness,
length, element types) run in source order and raise `TypeError`
messages built exactly as in the source. -/
def _check_position_columns (position_columns : PyValue) : Option String :=
  match position_columns with
  | .tuple elems =>
      if elems.length ≠ 2 then
        some ("position_columns must be of length of 2 but is of length "
          ++ toString elems.length)
      else if ¬ (elems.all PyValue.isStr) then
        some ("position_columns must be of type tuple[str, str] but is tuple["
          ++ (elems.getD 0 (.int 0)).typeName ++ ", "
          ++ (elems.getD 1 (.int 0)).typeName ++ "]")
      else none
  | v =>
      some ("position_columns must be of type tuple[str, str] but is of type "
        ++ v.typeName)

/-- `_check_velocity_columns` (event_properties.py, lines 95-110). -/
def _check_velocity_columns (velocity_columns : PyValue) : Option String :=
  match velocity_columns with
  | .tuple elems =>
      if elems.length ≠ 2 then
        some ("velocity_columns must be of length of 2 but is of length "
          ++ toString elems.length)
      else if ¬ (elems.all PyValue.isStr) then
        some ("velocity_columns must be of type tuple[str, str] but is tuple["
          ++ (elems.getD 0 (.int 0)).typeName ++ ", "
          ++ (elems.getD 1 (.int 0)).typeName ++ "]")
      else none
  | v =>
      some ("velocity_columns must be of type tuple[str, str] but is of type "
        ++ v.typeName)

/-- One row of the gaze frame handed to `EventGazeProcessor.process`:
identifier values plus time and the position/velocity channels. -/
structure GazeRow where
  ids : List ℤ
  time : ℤ
  x_pos : ℝ
  y_pos : ℝ
  x_vel : ℝ
  y_vel : ℝ

/-- One row of the event frame: identifier values, name, onset, offset. -/
structure EventRow where
  ids : List ℤ
  name : String
  onset : ℤ
  offset : ℤ

/-- One output row of `EventGazeProcessor.process`: the group key
(identifier values, name, onset, offset) and the computed property
columns. -/
structure OutRow where
  key : List ℤ × String × ℤ × ℤ
  values : List (String × ℝ)

/-- The names registered in the `EVENT_PROPERTIES` table
(event_properties.py, line 9, filled by the `register_event_property`
decorator). -/
inductive PropName where
  | duration
  | peak_velocity
  | dispersion
  | amplitude
  | disposition

/-- The registry key (the `__name__` of each property function). -/
def propName : PropName → String
  | .duration => "duration"
  | .peak_velocity => "peak_velocity"
  | .dispersion => "dispersion"
  | .amplitude => "amplitude"
  | .disposition => "disposition"

/-- The `EVENT_PROPERTIES` registry as an immutable mapping from name
to window reduction. -/
noncomputable def EVENT_PROPERTIES : PropName → (List GazeEventRow → ℝ)
  | .duration => duration
  | .peak_velocity => peak_velocity
  | .dispersion => dispersion
  | .amplitude => amplitude
  | .disposition => disposition

/-- `gaze.frame.join(events.frame, on=identifiers)`: every gaze row is
paired with every event row carrying the same identifier values (each
row stores the values of the identifier columns directly). -/
def egp_join (gaze : List GazeRow) (events : List EventRow) :
    List GazeEventRow :=
  gaze.flatMap (fun g =>
    (events.filter (fun e => decide (e.ids = g.ids))).map (fun e =>
      { ids := g.ids, time := g.time, name := e.name, onset := e.onset,
        offset := e.offset, x_pos := g.x_pos, y_pos := g.y_pos,
        x_vel := g.x_vel, y_vel := g.y_vel }))

/-- `.filter(pl.col(time).is_between(onset, offset))` - inclusive at
both ends (`closed=both`, the default of the polars versions in use,
and what spec 4.7 specifies). -/
def egp_filter (rows : List GazeEventRow) : List GazeEventRow :=
  rows.filter (fun j => decide (j.onset ≤ j.time ∧ j.time ≤ j.offset))

/-- The groupby key `[*identifiers, name, onset, offset]`. -/
def rowKey (j : GazeEventRow) : List ℤ × String × ℤ × ℤ :=
  (j.ids, j.name, j.onset, j.offset)

/-- `EventGazeProcessor.process` (event_processing.py, lines 65-107):
join gaze to events on the identifiers, keep samples inside the
inclusive onset/offset window, group by (identifiers, name, onset,
offset) and apply every requested reduction to each group, one output
row per group. The groupby is realized as first-occurrence dedup of the
keys plus key-filtering (polars does not guarantee group order). -/
noncomputable def EventGazeProcessor_process
    (event_properties : List PropName) (events : List EventRow)
    (gaze : List GazeRow) (identifiers : List String) :
    Except String (List OutRow) :=
  if identifiers.length = 0 then
    .error ("list of identifiers must not be empty")
  else
    let retained := egp_filter (egp_join gaze events)
    let keys := (retained.map rowKey).dedup
    .ok (keys.map (fun k =>
      { key := k,
        values := event_properties.map (fun p =>
          (propName p,
           EVENT_PROPERTIES p
             (retained.filter (fun j => decide (rowKey j = k))))) }))

/-! ## basic lemmas about the helpers -/

theorem getD_set_ne (l : List ℝ) (i j : ℕ) (x d : ℝ) (h : i ≠ j) :
    (l.set i x).getD j d = l.getD j d := by
  by_cases hj : j < l.length
  · rw [List.getD_eq_getElem _ _ (by simpa using hj), List.getD_eq_getElem _ _ hj,
      List.getElem_set_ne h]
  · rw [List.getD_eq_default _ _ (by simpa using not_lt.mp hj),
      List.getD_eq_default _ _ (not_lt.mp hj)]

theorem getD_set_self (l : List ℝ) (i : ℕ) (x d : ℝ) (h : i < l.length) :
    (l.set i x).getD i d = x := by
  rw [List.getD_eq_getElem _ _ (by simpa using h), List.getElem_set_self]

theorem sliceAssign_length {α : Type} (vals : List α) (v : List α) (s : ℕ) :
    (sliceAssign v s vals).length = v.length := by
  induction vals generalizing v s with
  | nil => rfl
  | cons x xs ih => simp [sliceAssign, ih]

theorem sliceAssign_getD_lt (vals : List ℝ) (v : List ℝ) (s j : ℕ) (d : ℝ)
    (h : j < s) : (sliceAssign v s vals).getD j d = v.getD j d := by
  induction vals generalizing v s with
  | nil => rfl
  | cons x xs ih =>
      rw [sliceAssign, ih _ _ (Nat.lt_succ_of_lt h),
        getD_set_ne _ _ _ _ _ (Nat.ne_of_gt h)]

theorem sliceAssign_getD_in (vals : List ℝ) (v : List ℝ) (s j : ℕ) (d : ℝ)
    (hs : s ≤ j) (hj : j - s < vals.length) (hv : j < v.length) :
    (sliceAssign v s vals).getD j d = vals.getD (j - s) d := by
  induction vals generalizing v s with
  | nil => simp at hj
  | cons x xs ih =>
      rcases Nat.eq_or_lt_of_le hs with heq | hlt
      · subst heq
        rw [sliceAssign, sliceAssign_getD_lt _ _ _ _ _ (Nat.lt_succ_self s),
          getD_set_self _ _ _ _ hv]
        simp
      · simp only [List.length_cons] at hj
        rw [sliceAssign, ih _ (s + 1) hlt
          (by omega) (by simpa using hv)]
        have hjs : j - s = (j - (s + 1)) + 1 := by omega
        rw [hjs]
        rfl

theorem sliceAssign_getD_ge (vals : List ℝ) (v : List ℝ) (s j : ℕ) (d : ℝ)
    (h : s + vals.length ≤ j) :
    (sliceAssign v s vals).getD j d = v.getD j d := by
  induction vals generalizing v s with
  | nil => rfl
  | cons x xs ih =>
      simp only [List.length_cons] at h
      rw [sliceAssign, ih _ _ (by omega),
        getD_set_ne _ _ _ _ _ (by omega)]



/-- Sorting commutes with mapping a monotone function on the reals. -/
theorem mergeSort_map_monotone (l : List ℝ) (f : ℝ → ℝ) (hf : Monotone f) :
    (l.map f).mergeSort (fun a b => decide (a ≤ b))
      = (l.mergeSort (fun a b => decide (a ≤ b))).map f := by
  apply List.eq_of_perm_of_sorted (r := (· ≤ · : ℝ → ℝ → Prop))
  · exact (List.mergeSort_perm _ _).trans
      ((List.mergeSort_perm l _).map f).symm
  · exact List.sorted_mergeSort' _
  · exact List.Pairwise.map f (fun a b hab => hf hab)
      (List.sorted_mergeSort' l)

/-- The median is positively homogeneous. -/
theorem median_mul_left (l : List ℝ) (k : ℝ) (hk : 0 ≤ k) :
    median (l.map (fun a => k * a)) = k * median l := by
  unfold median
  rw [mergeSort_map_monotone l _ (monotone_mul_left_of_nonneg hk)]
  have hd : ∀ (s : List ℝ) (n : ℕ),
      (s.map (fun a => k * a)).getD n 0 = k * s.getD n 0 := by
    intro s n
    have := List.getD_map s 0 (n := n) (fun a => k * a)
    simpa using this
  simp only [List.length_map, hd]
  split <;> ring

/-- The engbert2015 branch of `compute_threshold`, written out. -/
theorem compute_threshold_engbert2015_eq (arr : List (ℝ × ℝ)) :
    compute_threshold arr ("engbert2015")
      = .ok
        (Real.sqrt (median ((arr.map Prod.fst).map
          (fun a => (a - median (arr.map Prod.fst)) ^ 2))),
         Real.sqrt (median ((arr.map Prod.snd).map
          (fun a => (a - median (arr.map Prod.snd)) ^ 2)))) := rfl

/-- One axis of the engbert2015 statistic is positively homogeneous. -/
theorem engbert2015_axis (l : List ℝ) (k : ℝ) (hk : 0 ≤ k) :
    Real.sqrt (median ((l.map (fun a => k * a)).map
      (fun a => (a - median (l.map (fun a => k * a))) ^ 2)))
    = k * Real.sqrt (median (l.map (fun a => (a - median l) ^ 2))) := by
  rw [median_mul_left l k hk, List.map_map]
  have h1 : ((fun a => (a - k * median l) ^ 2) ∘ fun a => k * a)
      = (fun b => k ^ 2 * b) ∘ (fun a => (a - median l) ^ 2) := by
    funext a
    simp only [Function.comp_apply]
    ring
  rw [h1, ← List.map_map, median_mul_left _ _ (sq_nonneg k),
    Real.sqrt_mul (sq_nonneg k), Real.sqrt_sq hk]

theorem npSplit_flatten {α : Type} (idxs : List ℕ) (arr : List α) :
    (npSplit arr idxs).flatten = arr := by
  induction arr, idxs using npSplit.induct with
  | case1 arr => simp [npSplit]
  | case2 arr i rest ih => simp [npSplit, ih]

theorem foldl_max_add (c : ℝ) (xs : List ℝ) :
    ∀ a : ℝ, (xs.map (fun b => b + c)).foldl max (a + c)
      = xs.foldl max a + c := by
  induction xs with
  | nil => intro a; rfl
  | cons y ys ih =>
      intro a
      simp only [List.map_cons, List.foldl_cons]
      rw [max_add_add_right, ih]

theorem foldl_min_add (c : ℝ) (xs : List ℝ) :
    ∀ a : ℝ, (xs.map (fun b => b + c)).foldl min (a + c)
      = xs.foldl min a + c := by
  induction xs with
  | nil => intro a; rfl
  | cons y ys ih =>
      intro a
      simp only [List.map_cons, List.foldl_cons]
      rw [min_add_add_right, ih]

theorem listMax_add (c : ℝ) (l : List ℝ) (h : l ≠ []) :
    listMax (l.map (fun b => b + c)) = listMax l + c := by
  cases l with
  | nil => exact absurd rfl h
  | cons x xs => simp only [List.map_cons, listMax]; exact foldl_max_add c xs x

theorem listMin_add (c : ℝ) (l : List ℝ) (h : l ≠ []) :
    listMin (l.map (fun b => b + c)) = listMin l + c := by
  cases l with
  | nil => exact absurd rfl h
  | cons x xs => simp only [List.map_cons, listMin]; exact foldl_min_add c xs x

theorem headD_map_add (c : ℝ) (l : List ℝ) (h : l ≠ []) :
    (l.map (fun b => b + c)).headD 0 = l.headD 0 + c := by
  cases l with
  | nil => exact absurd rfl h
  | cons x xs => rfl

theorem getLastD_map_add (c : ℝ) (l : List ℝ) (h : l ≠ []) :
    (l.map (fun b => b + c)).getLastD 0 = l.getLastD 0 + c := by
  rw [List.getLastD_eq_getLast?, List.getLastD_eq_getLast?,
    List.getLast?_map]
  cases hl : l.getLast? with
  | none => exact absurd (List.getLast?_eq_none_iff.mp hl) h
  | some a => rfl

theorem map_translate_pos_x (c : ℝ) (w : List GazeEventRow) :
    (w.map (translateRow c)).map GazeEventRow.x_pos
      = (w.map GazeEventRow.x_pos).map (fun b => b + c) := by
  simp only [List.map_map]
  rfl

theorem map_translate_pos_y (c : ℝ) (w : List GazeEventRow) :
    (w.map (translateRow c)).map GazeEventRow.y_pos
      = (w.map GazeEventRow.y_pos).map (fun b => b + c) := by
  simp only [List.map_map]
  rfl

theorem check_position_accept_iff (v : PyValue) :
    _check_position_columns v = none ↔ ∃ a b, v = .tuple [.str a, .str b] := by
  cases v with
  | str s => simp [_check_position_columns]
  | int n => simp [_check_position_columns]
  | list elems => simp [_check_position_columns]
  | tuple elems =>
      match elems with
      | [] => simp [_check_position_columns]
      | [a] => simp [_check_position_columns]
      | a :: b :: c :: rest => simp [_check_position_columns]
      | [a, b] =>
          cases a <;> cases b <;>
            simp [_check_position_columns, PyValue.isStr]

theorem check_velocity_accept_iff (v : PyValue) :
    _check_velocity_columns v = none ↔ ∃ a b, v = .tuple [.str a, .str b] := by
  cases v with
  | str s => simp [_check_velocity_columns]
  | int n => simp [_check_velocity_columns]
  | list elems => simp [_check_velocity_columns]
  | tuple elems =>
      match elems with
      | [] => simp [_check_velocity_columns]
      | [a] => simp [_check_velocity_columns]
      | a :: b :: c :: rest => simp [_check_velocity_columns]
      | [a, b] =>
          cases a <;> cases b <;>
            simp [_check_velocity_columns, PyValue.isStr]


end Pytracker

/-! ## Claim theorems -/

open Pytracker

/-- C1 (counterexample): with explicit threshold `(1, 1)` and
`minimum_threshold = 1` the resolved threshold does not strictly exceed
the minimum on either axis (it equals it), yet `microsaccades` does not
raise: it returns an (empty) event collection, because the source only
raises when a component is strictly below the minimum. -/
theorem microsaccades_threshold_eq_min :
    resolve_threshold (.vec (1, 1)) [((0:ℝ), (0:ℝ))] = .ok (1, 1) ∧
    ((1:ℝ) ≤ 1) ∧
    microsaccades [((0:ℝ), (0:ℝ))] [((0:ℝ), (0:ℝ))] none 6 (.vec (1, 1)) 1 1
      = .ok [] := by
  refine ⟨rfl, le_refl 1, ?_⟩
  norm_num [microsaccades, check_shapes_positions_velocities,
    check_is_length_matching, resolve_threshold, consecutive, npSplit,
    splitIndices, diffList, npWhere, npWhereAux, EventDataFrame,
    List.range_succ]

/-- C1 (amended): whenever the shape checks pass and the resolved
threshold is strictly below `minimum_threshold` on some axis,
`microsaccades` raises the insufficient-variance error before producing
any events, regardless of the other inputs. -/
theorem microsaccades_raises_strictly_below
    (positions velocities : List (ℝ × ℝ)) (timesteps : Option (List ℤ))
    (minimum_duration : ℤ) (threshold : ThresholdArg)
    (threshold_factor minimum_threshold : ℝ) (th : ℝ × ℝ)
    (hshape : positions.length = velocities.length)
    (hts : ∀ l, timesteps = some l → velocities.length = l.length)
    (hres : resolve_threshold threshold velocities = .ok th)
    (hlt : th.1 < minimum_threshold ∨ th.2 < minimum_threshold) :
    microsaccades positions velocities timesteps minimum_duration threshold
      threshold_factor minimum_threshold
      = .error ("threshold does not provide enough variance as required by" ++
          " min_threshold") := by
  unfold microsaccades
  rw [hres]
  simp only [check_shapes_positions_velocities, hshape, ne_eq,
    not_true_eq_false, if_false]
  cases timesteps with
  | none =>
      simp [check_is_length_matching, hlt]
  | some l =>
      simp [check_is_length_matching, hts l rfl, hlt]

/-- Witness for the amended C1 theorem at a concrete input: explicit
threshold `(0, 0)` with `minimum_threshold = 1` raises. -/
theorem microsaccades_raises_strictly_below_witness :
    resolve_threshold (.vec (0, 0)) [((0:ℝ), (0:ℝ))] = .ok (0, 0) ∧
    (((0:ℝ), (0:ℝ)).1 < 1 ∨ ((0:ℝ), (0:ℝ)).2 < 1) ∧
    microsaccades [((0:ℝ), (0:ℝ))] [((0:ℝ), (0:ℝ))] none 6 (.vec (0, 0)) 1 1
      = .error ("threshold does not provide enough variance as required by" ++
          " min_threshold") :=
  ⟨rfl, Or.inl (by norm_num),
    microsaccades_raises_strictly_below _ _ _ _ _ _ _ _ rfl
      (fun l h => by cases h) rfl (Or.inl (by norm_num))⟩

/-- C2: eleven velocity samples, five `(0, 0)` rows, one `(50, 50)` row,
five `(0, 0)` rows, with matching `(11, 2)` positions, default timesteps,
explicit threshold `(1, 1)`, `threshold_factor = 1`,
`minimum_duration = 0`: exactly one event, with onset = offset = 5. -/
theorem microsaccades_spike_scenario :
    microsaccades (List.replicate 11 ((0:ℝ), (0:ℝ)))
      (List.replicate 5 ((0:ℝ), (0:ℝ)) ++ [((50:ℝ), (50:ℝ))] ++
        List.replicate 5 ((0:ℝ), (0:ℝ)))
      none 0 (.vec (1, 1)) 1 (1e-10)
      = .ok [Event.mk ("saccade") 5 5] := by
  norm_num [microsaccades, check_shapes_positions_velocities,
    check_is_length_matching, resolve_threshold, consecutive, npSplit,
    splitIndices, diffList, npWhere, npWhereAux, EventDataFrame,
    List.replicate, List.range_succ]

/-- C3: `pos2vel` with method `smooth` follows the boundary-aware
5-point scheme exactly as the spec states it: 2-point forward/backward
differences at the first and last sample, 2-point central differences
at the second and second-last sample, and the 5-point window on the
interior, with no uniform-window adjustment at the boundaries. -/
theorem pos2vel_smooth_formulas
    (x : List ℝ) (r : ℝ) (f : List ℝ → List ℝ)
    (hN : 6 ≤ x.length) (hr : 0 < r) :
    ∃ v : List ℝ, pos2vel x r ("smooth") false f = .ok v ∧
      v.length = x.length ∧
      v.getD 0 0 = (x.getD 1 0 - x.getD 0 0) * r / 2 ∧
      v.getD 1 0 = (x.getD 2 0 - x.getD 0 0) * r / 2 ∧
      (∀ i, 2 ≤ i → i ≤ x.length - 3 →
        v.getD i 0 = (x.getD (i + 2) 0 + x.getD (i + 1) 0 - x.getD (i - 1) 0
          - x.getD (i - 2) 0) * r / 6) ∧
      v.getD (x.length - 2) 0
        = (x.getD (x.length - 1) 0 - x.getD (x.length - 3) 0) * r / 2 ∧
      v.getD (x.length - 1) 0
        = (x.getD (x.length - 1) 0 - x.getD (x.length - 2) 0) * r / 2 := by
  unfold pos2vel
  rw [if_neg (not_le.mpr hr), if_neg (by simp [Nat.not_lt.mpr hN]),
    if_neg (by simp), if_neg (by simp), if_neg (by simp), if_pos rfl]
  set N := x.length with hNdef
  have hma : (List.zipWith (fun a b => a - b)
      (List.zipWith (fun a b => a - b)
        (List.zipWith (fun a b => a + b) (x.drop 4) (x.drop 3))
        (x.drop 1)) x).length = N - 4 := by
    simp [List.length_zipWith]
    omega
  refine ⟨_, rfl, ?_, ?_, ?_, ?_, ?_, ?_⟩
  · simp [List.length_set, sliceAssign_length]
  · -- index 0
    rw [getD_set_ne _ _ _ _ _ (by omega), getD_set_self _ _ _ _ (by
      simp [List.length_set, sliceAssign_length]; omega)]
  · -- index 1
    rw [getD_set_ne _ _ _ _ _ (by omega), getD_set_ne _ _ _ _ _ (by omega),
      getD_set_ne _ _ _ _ _ (by omega), getD_set_self _ _ _ _ (by
        simp [sliceAssign_length]; omega)]
  · -- interior
    intro i h2 h3
    rw [getD_set_ne _ _ _ _ _ (by omega), getD_set_ne _ _ _ _ _ (by omega),
      getD_set_ne _ _ _ _ _ (by omega), getD_set_ne _ _ _ _ _ (by omega),
      sliceAssign_getD_in _ _ _ _ _ (by omega)
        (by simp [List.length_map, hma]; omega)
        (by simp [List.length_replicate]; omega)]
    have hi2 : i - 2 < (List.zipWith (fun a b => a - b)
        (List.zipWith (fun a b => a - b)
          (List.zipWith (fun a b => a + b) (x.drop 4) (x.drop 3))
          (x.drop 1)) x).length := by rw [hma]; omega
    rw [List.getD_eq_getElem _ _ (by simpa using hi2),
      List.getElem_map, List.getElem_zipWith, List.getElem_zipWith,
      List.getElem_zipWith, List.getElem_drop, List.getElem_drop,
      List.getElem_drop]
    rw [List.getD_eq_getElem _ _ (by omega : i + 2 < x.length),
      List.getD_eq_getElem _ _ (by omega : i + 1 < x.length),
      List.getD_eq_getElem _ _ (by omega : i - 1 < x.length),
      List.getD_eq_getElem _ _ (by omega : i - 2 < x.length)]
    have e1 : 4 + (i - 2) = i + 2 := by omega
    have e2 : 3 + (i - 2) = i + 1 := by omega
    have e3 : 1 + (i - 2) = i - 1 := by omega
    simp only [e1, e2, e3]
  · -- index N - 2
    rw [getD_set_ne _ _ _ _ _ (by omega), getD_set_ne _ _ _ _ _ (by omega),
      getD_set_self _ _ _ _ (by simp [List.length_set, sliceAssign_length]; omega)]
  · -- index N - 1
    rw [getD_set_self _ _ _ _ (by simp [List.length_set, sliceAssign_length]; omega)]

/-- Witness for C3 at `x = [0, 1, 4, 9, 16, 25]`, rate 2. -/
theorem pos2vel_smooth_formulas_witness :
    6 ≤ ([(0:ℝ), 1, 4, 9, 16, 25]).length ∧ (0:ℝ) < 2 ∧
    (∃ v : List ℝ,
      pos2vel ([(0:ℝ), 1, 4, 9, 16, 25]) 2 ("smooth") false (fun l => l)
        = .ok v ∧
      v.length = ([(0:ℝ), 1, 4, 9, 16, 25]).length ∧
      v.getD 0 0 = (([(0:ℝ), 1, 4, 9, 16, 25]).getD 1 0
        - ([(0:ℝ), 1, 4, 9, 16, 25]).getD 0 0) * 2 / 2 ∧
      v.getD 1 0 = (([(0:ℝ), 1, 4, 9, 16, 25]).getD 2 0
        - ([(0:ℝ), 1, 4, 9, 16, 25]).getD 0 0) * 2 / 2 ∧
      (∀ i, 2 ≤ i → i ≤ ([(0:ℝ), 1, 4, 9, 16, 25]).length - 3 →
        v.getD i 0 = (([(0:ℝ), 1, 4, 9, 16, 25]).getD (i + 2) 0
          + ([(0:ℝ), 1, 4, 9, 16, 25]).getD (i + 1) 0
          - ([(0:ℝ), 1, 4, 9, 16, 25]).getD (i - 1) 0
          - ([(0:ℝ), 1, 4, 9, 16, 25]).getD (i - 2) 0) * 2 / 6) ∧
      v.getD (([(0:ℝ), 1, 4, 9, 16, 25]).length - 2) 0
        = (([(0:ℝ), 1, 4, 9, 16, 25]).getD
            (([(0:ℝ), 1, 4, 9, 16, 25]).length - 1) 0
          - ([(0:ℝ), 1, 4, 9, 16, 25]).getD
            (([(0:ℝ), 1, 4, 9, 16, 25]).length - 3) 0) * 2 / 2 ∧
      v.getD (([(0:ℝ), 1, 4, 9, 16, 25]).length - 1) 0
        = (([(0:ℝ), 1, 4, 9, 16, 25]).getD
            (([(0:ℝ), 1, 4, 9, 16, 25]).length - 1) 0
          - ([(0:ℝ), 1, 4, 9, 16, 25]).getD
            (([(0:ℝ), 1, 4, 9, 16, 25]).length - 2) 0) * 2 / 2) :=
  ⟨by simp, by norm_num,
    pos2vel_smooth_formulas _ _ _ (by simp) (by norm_num)⟩

/-- C6: with no zero screen parameter, `pix2deg` recenters by
`(screen_px - 1) / 2` exactly when the origin is lower-left, leaves the
coordinates unchanged for origin center, raises for any other origin
value, and returns `atan2(coord, distance_cm * (screen_px / screen_cm))
* 180 / pi` elementwise with the input shape preserved. -/
theorem pix2deg_algorithm
    (arr : List (ℝ × ℝ)) (screen_px screen_cm : ℝ × ℝ) (distance_cm : ℝ)
    (h1 : screen_px.1 ≠ 0) (h2 : screen_px.2 ≠ 0)
    (h3 : screen_cm.1 ≠ 0) (h4 : screen_cm.2 ≠ 0) (h5 : distance_cm ≠ 0) :
    (pix2deg arr screen_px screen_cm distance_cm ("lower left")
      = .ok (arr.map (fun c =>
        (arctan2 (c.1 - (screen_px.1 - 1) / 2)
            (distance_cm * (screen_px.1 / screen_cm.1)) * 180 / Real.pi,
         arctan2 (c.2 - (screen_px.2 - 1) / 2)
            (distance_cm * (screen_px.2 / screen_cm.2)) * 180 / Real.pi)))) ∧
    (pix2deg arr screen_px screen_cm distance_cm ("center")
      = .ok (arr.map (fun c =>
        (arctan2 c.1 (distance_cm * (screen_px.1 / screen_cm.1))
            * 180 / Real.pi,
         arctan2 c.2 (distance_cm * (screen_px.2 / screen_cm.2))
            * 180 / Real.pi)))) ∧
    (∀ origin, origin ≠ "lower left" → origin ≠ "center" →
      pix2deg arr screen_px screen_cm distance_cm origin
        = .error ("origin " ++ origin ++ " is not supported.")) ∧
    (∀ origin res,
      pix2deg arr screen_px screen_cm distance_cm origin = .ok res →
      res.length = arr.length) := by
  have c1 : check_no_zeros_pair screen_px ("screen_px") = none := by
    simp [check_no_zeros_pair, h1, h2]
  have c2 : check_no_zeros_pair screen_cm ("screen_px") = none := by
    simp [check_no_zeros_pair, h3, h4]
  have c3 : check_no_zeros_scalar distance_cm ("distance_cm") = none := by
    simp [check_no_zeros_scalar, h5]
  refine ⟨?_, ?_, ?_, ?_⟩
  · simp [pix2deg, c1, c2, c3, List.map_map]
  · simp [pix2deg, c1, c2, c3]
  · intro origin hn1 hn2
    simp [pix2deg, c1, c2, c3, hn1, hn2]
  · intro origin res h
    simp only [pix2deg, c1, c2, c3] at h
    by_cases ho1 : origin = "lower left"
    · simp [ho1] at h
      rw [← h]
      simp
    · by_cases ho2 : origin = "center"
      · simp [ho1, ho2] at h
        rw [← h]
        simp
      · simp [ho1, ho2] at h

/-- Witness for C6 at `arr = [(0, 0)]`, `screen_px = (2, 2)`,
`screen_cm = (1, 1)`, `distance_cm = 1`. -/
theorem pix2deg_algorithm_witness :
    ((2:ℝ), (2:ℝ)).1 ≠ 0 ∧ ((2:ℝ), (2:ℝ)).2 ≠ 0 ∧
    ((1:ℝ), (1:ℝ)).1 ≠ 0 ∧ ((1:ℝ), (1:ℝ)).2 ≠ 0 ∧ (1:ℝ) ≠ 0 ∧
    ((pix2deg [((0:ℝ), (0:ℝ))] (2, 2) (1, 1) 1 ("lower left")
      = .ok ([((0:ℝ), (0:ℝ))].map (fun c =>
        (arctan2 (c.1 - (((2:ℝ), (2:ℝ)).1 - 1) / 2)
            (1 * (((2:ℝ), (2:ℝ)).1 / ((1:ℝ), (1:ℝ)).1)) * 180 / Real.pi,
         arctan2 (c.2 - (((2:ℝ), (2:ℝ)).2 - 1) / 2)
            (1 * (((2:ℝ), (2:ℝ)).2 / ((1:ℝ), (1:ℝ)).2)) * 180 / Real.pi)))) ∧
    (pix2deg [((0:ℝ), (0:ℝ))] (2, 2) (1, 1) 1 ("center")
      = .ok ([((0:ℝ), (0:ℝ))].map (fun c =>
        (arctan2 c.1 (1 * (((2:ℝ), (2:ℝ)).1 / ((1:ℝ), (1:ℝ)).1))
            * 180 / Real.pi,
         arctan2 c.2 (1 * (((2:ℝ), (2:ℝ)).2 / ((1:ℝ), (1:ℝ)).2))
            * 180 / Real.pi)))) ∧
    (∀ origin, origin ≠ "lower left" → origin ≠ "center" →
      pix2deg [((0:ℝ), (0:ℝ))] (2, 2) (1, 1) 1 origin
        = .error ("origin " ++ origin ++ " is not supported.")) ∧
    (∀ origin res,
      pix2deg [((0:ℝ), (0:ℝ))] (2, 2) (1, 1) 1 origin = .ok res →
      res.length = ([((0:ℝ), (0:ℝ))] : List (ℝ × ℝ)).length)) :=
  ⟨by norm_num, by norm_num, by norm_num, by norm_num, by norm_num,
    pix2deg_algorithm _ _ _ _ (by norm_num) (by norm_num) (by norm_num)
      (by norm_num) (by norm_num)⟩

/-- C7 (code bug): a zero component in `screen_cm` makes `pix2deg` fail
immediately with no partial result, but the error message names
`screen_px`, not `screen_cm`: transforms.py line 26 passes the literal
name `screen_px` to the zero check of the `screen_cm` argument. -/
theorem pix2deg_zero_screen_cm_names_screen_px :
    pix2deg [((0:ℝ), (0:ℝ))] (1, 1) (0, 1) 1 ("center")
      = .error ("each component in screen_px must not be zero") := by
  norm_num [pix2deg, check_no_zeros_pair, check_no_zeros_scalar]
  rfl


/-- C8: the engbert2015 threshold is positively homogeneous: scaling a
non-empty `(N, 2)` velocity array by `k ≥ 0` scales the computed
threshold by `k` on each axis. (Non-emptiness keeps the statement inside
the scope of the numpy semantics: on an empty array numpy produces NaN,
which the real-number model does not represent.) -/
theorem compute_threshold_engbert2015_homogeneous
    (v : List (ℝ × ℝ)) (k : ℝ) (hk : 0 ≤ k) (hne : v ≠ []) :
    ∃ t : ℝ × ℝ, compute_threshold v ("engbert2015") = .ok t ∧
      compute_threshold (v.map (fun p => (k * p.1, k * p.2))) ("engbert2015")
        = .ok (k * t.1, k * t.2) := by
  refine ⟨_, compute_threshold_engbert2015_eq v, ?_⟩
  rw [compute_threshold_engbert2015_eq]
  have hX : ((v.map (fun p => (k * p.1, k * p.2))).map Prod.fst)
      = (v.map Prod.fst).map (fun a => k * a) := by
    simp only [List.map_map]
    rfl
  have hY : ((v.map (fun p => (k * p.1, k * p.2))).map Prod.snd)
      = (v.map Prod.snd).map (fun a => k * a) := by
    simp only [List.map_map]
    rfl
  rw [hX, hY, engbert2015_axis _ _ hk, engbert2015_axis _ _ hk]

/-- Witness for C8 at the concrete array `[(1, 2), (3, 4)]` and `k = 2`. -/
theorem compute_threshold_engbert2015_homogeneous_witness :
    (0:ℝ) ≤ 2 ∧ ([((1:ℝ), (2:ℝ)), ((3:ℝ), (4:ℝ))] : List (ℝ × ℝ)) ≠ [] ∧
    (∃ t : ℝ × ℝ,
      compute_threshold ([((1:ℝ), (2:ℝ)), ((3:ℝ), (4:ℝ))]) ("engbert2015")
        = .ok t ∧
      compute_threshold
        (([((1:ℝ), (2:ℝ)), ((3:ℝ), (4:ℝ))] : List (ℝ × ℝ)).map
          (fun p => (2 * p.1, 2 * p.2))) ("engbert2015")
        = .ok (2 * t.1, 2 * t.2)) :=
  ⟨by norm_num, by simp,
    compute_threshold_engbert2015_homogeneous _ 2 (by norm_num) (by simp)⟩

/-- C5 (amended): the position reductions `amplitude`, `dispersion` and
`disposition` are invariant under a constant additive offset applied to
the whole position/velocity signal of the window; `peak_velocity` is
excluded (see the counterexample). -/
theorem position_properties_translation_invariant
    (w : List GazeEventRow) (c : ℝ) :
    amplitude (w.map (translateRow c)) = amplitude w ∧
    dispersion (w.map (translateRow c)) = dispersion w ∧
    disposition (w.map (translateRow c)) = disposition w := by
  cases w with
  | nil => simp [amplitude, dispersion, disposition]
  | cons r rs =>
      have hne : (r :: rs).map GazeEventRow.x_pos ≠ [] := by simp
      have hne2 : (r :: rs).map GazeEventRow.y_pos ≠ [] := by simp
      refine ⟨?_, ?_, ?_⟩
      · unfold amplitude
        rw [map_translate_pos_x, map_translate_pos_y,
          listMax_add _ _ hne, listMin_add _ _ hne,
          listMax_add _ _ hne2, listMin_add _ _ hne2]
        ring_nf
      · unfold dispersion
        rw [map_translate_pos_x, map_translate_pos_y,
          listMax_add _ _ hne, listMin_add _ _ hne,
          listMax_add _ _ hne2, listMin_add _ _ hne2]
        ring
      · unfold disposition
        rw [map_translate_pos_x, map_translate_pos_y,
          headD_map_add _ _ hne, getLastD_map_add _ _ hne,
          headD_map_add _ _ hne2, getLastD_map_add _ _ hne2]
        ring_nf

/-- C5 (counterexample): `peak_velocity` is not translation invariant:
on the one-sample window with velocity `(3, 4)` the peak velocity is 5,
but after adding `-3` to the whole signal it is 1. -/
theorem peak_velocity_not_translation_invariant :
    peak_velocity
        (([{ ids := [], time := 0, name := ("saccade"), onset := 0,
             offset := 0, x_pos := 0, y_pos := 0, x_vel := 3, y_vel := 4 }] :
          List GazeEventRow).map (translateRow (-3)))
      ≠ peak_velocity
        ([{ ids := [], time := 0, name := ("saccade"), onset := 0,
            offset := 0, x_pos := 0, y_pos := 0, x_vel := 3, y_vel := 4 }] :
          List GazeEventRow) := by
  unfold peak_velocity translateRow
  simp only [List.map_cons, List.map_nil, listMax, List.foldl_nil]
  norm_num
  rw [show ((25:ℝ) = 5 ^ 2) from by norm_num, Real.sqrt_sq (by norm_num)]
  norm_num

/-- C9 (counterexample): a 2-element Python list of names is a
2-element sequence of names, yet both column checks reject it, because
the source tests `isinstance(..., tuple)`. -/
theorem check_columns_reject_list_of_names :
    _check_position_columns (.list [.str ("x_pos"), .str ("y_pos")])
      = some ("position_columns must be of type tuple[str, str]"
          ++ " but is of type list") ∧
    _check_velocity_columns (.list [.str ("x_vel"), .str ("y_vel")])
      = some ("velocity_columns must be of type tuple[str, str]"
          ++ " but is of type list") := by
  constructor <;> rfl

/-- C9 (amended): the column-name checks accept exactly the 2-element
tuples of strings and raise a `TypeError` naming the offending type or
length for every other value. -/
theorem check_columns_tuple_of_strings (v : PyValue) :
    (_check_position_columns v = none ↔ ∃ a b, v = .tuple [.str a, .str b]) ∧
    (_check_velocity_columns v = none ↔ ∃ a b, v = .tuple [.str a, .str b]) :=
  ⟨check_position_accept_iff v, check_velocity_accept_iff v⟩

/-- C4: `EventGazeProcessor.process` with a non-empty identifier list
retains exactly the joined samples with `onset <= time <= offset`
(both boundaries inclusive), groups them by (identifiers, name, onset,
offset), and produces one output row per event group carrying exactly
the requested property columns evaluated on that group. -/
theorem event_gaze_processor_process_spec
    (props : List PropName) (events : List EventRow) (gaze : List GazeRow)
    (identifiers : List String) (hid : identifiers ≠ []) :
    ∃ rows,
      EventGazeProcessor_process props events gaze identifiers = .ok rows ∧
      (∀ j, j ∈ egp_filter (egp_join gaze events) ↔
        j ∈ egp_join gaze events ∧ j.onset ≤ j.time ∧ j.time ≤ j.offset) ∧
      (rows.map OutRow.key).Nodup ∧
      (∀ k, k ∈ rows.map OutRow.key ↔
        k ∈ (egp_filter (egp_join gaze events)).map rowKey) ∧
      (∀ r ∈ rows, r.values.map Prod.fst = props.map propName ∧
        r.values = props.map (fun p =>
          (propName p,
           EVENT_PROPERTIES p
             ((egp_filter (egp_join gaze events)).filter
               (fun j => decide (rowKey j = r.key)))))) := by
  have hlen : ¬ identifiers.length = 0 := by
    simpa [List.length_eq_zero] using hid
  unfold EventGazeProcessor_process
  rw [if_neg hlen]
  refine ⟨_, rfl, ?_, ?_, ?_, ?_⟩
  · intro j
    simp [egp_filter, List.mem_filter]
  · have : (((egp_filter (egp_join gaze events)).map rowKey).dedup.map
        (fun k => OutRow.mk k (props.map (fun p =>
          (propName p, EVENT_PROPERTIES p
            ((egp_filter (egp_join gaze events)).filter
              (fun j => decide (rowKey j = k)))))))).map OutRow.key
        = ((egp_filter (egp_join gaze events)).map rowKey).dedup := by
      rw [List.map_map]
      exact List.map_id' _
    rw [this]
    exact List.nodup_dedup _
  · intro k
    have : (((egp_filter (egp_join gaze events)).map rowKey).dedup.map
        (fun k => OutRow.mk k (props.map (fun p =>
          (propName p, EVENT_PROPERTIES p
            ((egp_filter (egp_join gaze events)).filter
              (fun j => decide (rowKey j = k)))))))).map OutRow.key
        = ((egp_filter (egp_join gaze events)).map rowKey).dedup := by
      rw [List.map_map]
      exact List.map_id' _
    rw [this]
    exact List.mem_dedup
  · intro r hr
    obtain ⟨k, _, rfl⟩ := List.mem_map.mp hr
    exact ⟨by simp [List.map_map], rfl⟩

/-- Witness for C4 on a one-event, one-sample frame pair. -/
theorem event_gaze_processor_process_spec_witness :
    ([("trial" : String)] ≠ []) ∧
    (∃ rows,
      EventGazeProcessor_process [PropName.duration]
          [{ ids := [7], name := ("saccade"), onset := 0, offset := 1 }]
          [{ ids := [7], time := 0, x_pos := 0, y_pos := 0,
             x_vel := 0, y_vel := 0 }]
          [("trial")] = .ok rows ∧
      (∀ j, j ∈ egp_filter (egp_join
          [{ ids := [7], time := 0, x_pos := 0, y_pos := 0,
             x_vel := 0, y_vel := 0 }]
          [{ ids := [7], name := ("saccade"), onset := 0, offset := 1 }]) ↔
        j ∈ egp_join
          [{ ids := [7], time := 0, x_pos := 0, y_pos := 0,
             x_vel := 0, y_vel := 0 }]
          [{ ids := [7], name := ("saccade"), onset := 0, offset := 1 }]
          ∧ j.onset ≤ j.time ∧ j.time ≤ j.offset) ∧
      (rows.map OutRow.key).Nodup ∧
      (∀ k, k ∈ rows.map OutRow.key ↔
        k ∈ (egp_filter (egp_join
          [{ ids := [7], time := 0, x_pos := 0, y_pos := 0,
             x_vel := 0, y_vel := 0 }]
          [{ ids := [7], name := ("saccade"), onset := 0,
             offset := 1 }])).map rowKey) ∧
      (∀ r ∈ rows, r.values.map Prod.fst
          = [PropName.duration].map propName ∧
        r.values = [PropName.duration].map (fun p =>
          (propName p,
           EVENT_PROPERTIES p
             ((egp_filter (egp_join
               [{ ids := [7], time := 0, x_pos := 0, y_pos := 0,
                  x_vel := 0, y_vel := 0 }]
               [{ ids := [7], name := ("saccade"), onset := 0,
                  offset := 1 }])).filter
               (fun j => decide (rowKey j = r.key))))))) :=
  ⟨by simp, event_gaze_processor_process_spec _ _ _ _ (by simp)⟩

/-- C10: `downsample` ignores its `factor` argument completely: for every
input index array and any two factor values the results coincide, and the
result is a partition of the input (its chunks concatenate back to the
input). -/
theorem downsample_factor_independent (arr : List ℤ) (f1 f2 : ℤ) :
    downsample arr f1 = downsample arr f2 ∧ (downsample arr f1).flatten = arr :=
  ⟨rfl, npSplit_flatten _ _⟩
